import Mathlib

/-!
Verification of the text-processing logic of the `research-code` repository.

Each Python function that the specification talks about is translated here
into an executable Lean definition over `List Char` (strings) and
`List (List Char)` (line sequences), faithful to the Python source:
`str.strip` becomes `pstrip`, `file.readlines` followed by per-line
stripping becomes `splitLines` followed by `pstrip` (the two agree because
a trailing empty segment produced by `splitLines` is whitespace-only and
matches no branch of any reader), `str.startswith` becomes
`List.isPrefixOf`, and Python dictionaries with optional keys become
structures with `Option` fields.  Fallible or effectful script behaviour
(raising on a missing API key, `sys.exit`) is modelled with
`Except String`, and external calls (Gemini, the `datetime` formatter) are
opaque function parameters.
-/

set_option maxRecDepth 10000

/-- The characters stripped by Python `str.strip`, i.e. exactly those for
which CPython `str.isspace` is true: the ASCII control whitespace
U+0009-U+000D and U+001C-U+001F, space, NEL (U+0085), NBSP (U+00A0),
OGHAM SPACE MARK (U+1680), the EN QUAD..HAIR SPACE range
(U+2000-U+200A), LINE SEPARATOR (U+2028), PARAGRAPH SEPARATOR (U+2029),
NARROW NBSP (U+202F), MEDIUM MATHEMATICAL SPACE (U+205F) and IDEOGRAPHIC
SPACE (U+3000). -/
def isPyWs (c : Char) : Bool :=
  let n := c.toNat
  (9 ≤ n && n ≤ 13) || (28 ≤ n && n ≤ 32) || n = 133 || n = 160 ||
  n = 5760 || (8192 ≤ n && n ≤ 8202) || n = 8232 || n = 8233 ||
  n = 8239 || n = 8287 || n = 12288

/-- Python `str.strip`: drop leading and trailing whitespace. -/
def pstrip (l : List Char) : List Char :=
  ((l.dropWhile isPyWs).reverse.dropWhile isPyWs).reverse

/-- Split a character sequence at newline characters, as
`file.readlines()` does (modulo keeping the terminators, which the
immediately following `strip` removes anyway). -/
def splitLines : List Char → List (List Char)
  | [] => [[]]
  | c :: rest =>
    if c = '\n' then [] :: splitLines rest
    else
      match splitLines rest with
      | [] => [[c]]
      | l :: ls => (c :: l) :: ls

/-- Decimal rendering of a natural number, as Python `str`/f-strings
render a nonnegative `int`. -/
def natStr (n : Nat) : List Char :=
  Nat.toDigits 10 n

/-- Python `"\n".join`. -/
def joinNl : List (List Char) → List Char
  | [] => []
  | [l] => l
  | l :: l2 :: ls => l ++ '\n' :: joinNl (l2 :: ls)


/-! ### The transcript file writer and reader

`src/youtube/yt_workflow.py` (`save_transcripts_to_file`,
`read_transcripts_file`); the identical reader also appears in
`src/youtube/scripts_for_workflow/yt_summaries.py` and the identical
writer in `src/youtube/scripts_for_workflow/yt_transcripts.py`.
The writer fetches each transcript with `get_transcript(video["url"])`,
a network call; here the fetched text is carried as the `transcript`
field of the input record. -/

/-- A video record together with the transcript text that
`get_transcript` returned for it. -/
structure SavedVideo where
  title : List Char
  url : List Char
  transcript : List Char
deriving DecidableEq, Repr

/-- The `current_video` dictionary of the reader: the keys `"title"` and
`"url"` may each be present or absent. -/
structure CurVideo where
  title : Option (List Char) := none
  url : Option (List Char) := none
deriving DecidableEq, Repr

/-- A reconstructed record as produced by `read_transcripts_file`: the
`current_video` dictionary with the joined transcript added. -/
structure TRecord where
  title : Option (List Char)
  url : Option (List Char)
  transcript : List Char
deriving DecidableEq, Repr

/-- The loop state of `read_transcripts_file`. -/
structure RState where
  videos : List TRecord
  cur : CurVideo
  curTr : List (List Char)
  reading : Bool
deriving DecidableEq, Repr

/-- Python truthiness of the `current_video` dictionary: non-empty. -/
def CurVideo.nonEmpty (v : CurVideo) : Bool :=
  v.title.isSome || v.url.isSome

/-- `current_video["transcript"] = "\n".join(current_transcript)` followed
by `videos.append(current_video.copy())`. -/
def flushRecord (v : CurVideo) (tr : List (List Char)) : TRecord :=
  { title := v.title, url := v.url, transcript := joinNl tr }

/-- One iteration of the `for line in lines` loop of
`read_transcripts_file`, applied to the already-stripped line. -/
def readStep (st : RState) (line : List Char) : RState :=
  if "Video #".data.isPrefixOf line then
    { videos :=
        if st.cur.nonEmpty && !st.curTr.isEmpty then
          st.videos ++ [flushRecord st.cur st.curTr]
        else st.videos
      cur := {}
      curTr := []
      reading := false }
  else if "Title: ".data.isPrefixOf line then
    { st with cur := { st.cur with title := some (line.drop 7) } }
  else if "URL: ".data.isPrefixOf line then
    { st with cur := { st.cur with url := some (line.drop 5) } }
  else if line = "TRANSCRIPT:".data then
    { st with reading := true }
  else if st.reading && !line.isEmpty && !("=".data.isPrefixOf line) then
    { st with curTr := st.curTr ++ [line] }
  else st

/-- The trailing `if current_video and current_transcript` flush after
the loop. -/
def readFinish (st : RState) : List TRecord :=
  if st.cur.nonEmpty && !st.curTr.isEmpty then
    st.videos ++ [flushRecord st.cur st.curTr]
  else st.videos

/-- `read_transcripts_file` applied to a sequence of raw lines: each line
is stripped and fed to the loop, and the final accumulator is flushed. -/
def read_transcripts_lines (lines : List (List Char)) : List TRecord :=
  readFinish (lines.foldl (fun st line => readStep st (pstrip line)) ⟨[], {}, [], false⟩)

/-- `read_transcripts_file` applied to the full text of the file. -/
def read_transcripts_file (content : List Char) : List TRecord :=
  read_transcripts_lines (splitLines content)

/-- The `"=" * 80` separator. -/
def eq80 : List Char :=
  "========================================".data ++ "========================================".data

/-- The `"-" * 80` separator. -/
def dash80 : List Char :=
  "----------------------------------------".data ++ "----------------------------------------".data

/-- The block written for video number `i` by the loop body of
`save_transcripts_to_file`. -/
def transcriptSection (i : Nat) (v : SavedVideo) : List Char :=
  "Video #".data ++ natStr i ++ "\n".data ++
  "Title: ".data ++ v.title ++ "\n".data ++
  "URL: ".data ++ v.url ++ "\n".data ++
  dash80 ++ "\n\n".data ++
  "TRANSCRIPT:\n".data ++ v.transcript ++
  "\n".data ++ eq80 ++ "\n\n".data

/-- The per-video blocks for `enumerate(videos, 1)` starting at index `i`. -/
def transcriptSections (i : Nat) : List SavedVideo → List Char
  | [] => []
  | v :: vs => transcriptSection i v ++ transcriptSections (i + 1) vs

/-- The full text written by `save_transcripts_to_file`. -/
def save_transcripts_content (searchTerm : List Char) (videos : List SavedVideo) :
    List Char :=
  "YouTube Video Transcripts for Search Term: '".data ++ searchTerm ++ "'\n".data ++
  eq80 ++ "\n\n".data ++
  transcriptSections 1 videos


/-- A transcript body line that the reader keeps verbatim: it strips to
itself, is non-empty, and matches none of the reader's markers. -/
def goodTrLine (l : List Char) : Prop :=
  pstrip l = l ∧ l ≠ [] ∧
  "Video #".data.isPrefixOf l = false ∧
  "Title: ".data.isPrefixOf l = false ∧
  "URL: ".data.isPrefixOf l = false ∧
  l ≠ "TRANSCRIPT:".data ∧
  "=".data.isPrefixOf l = false

instance : DecidablePred goodTrLine := fun l => by
  unfold goodTrLine
  infer_instance

/-- Every record ever flushed has at least one identifying field and
non-empty transcript text; pending transcript lines are non-empty. -/
def ReaderInv (st : RState) : Prop :=
  (∀ r ∈ st.videos, (r.title.isSome ∨ r.url.isSome) ∧ r.transcript ≠ []) ∧
  (∀ l ∈ st.curTr, l ≠ [])



/-! ### `get_video_id_from_url`

`src/youtube/yt_workflow.py` and
`src/youtube/scripts_for_workflow/yt_transcripts.py` (identical):
`re.search` over the patterns
`(?:v=|/)([0-9A-Za-z_-]{11}).*` and `youtu.be/([0-9A-Za-z_-]{11})`. -/

/-- The character class `[0-9A-Za-z_-]`. -/
def isIdChar (c : Char) : Bool :=
  c.isAlphanum || c = '_' || c = '-'

/-- Match the group `([0-9A-Za-z_-]{11})` at the current position (the
trailing `.*` of the first pattern can never fail). -/
def grab11 (rest : List Char) : Option (List Char) :=
  if (rest.take 11).all isIdChar ∧ (rest.take 11).length = 11 then
    some (rest.take 11)
  else none

/-- `re.search` for `(?:v=|/)([0-9A-Za-z_-]{11}).*`: positions are tried
left to right and, at each position, `v=` before `/`. -/
def searchPat1 : List Char → Option (List Char)
  | [] => none
  | c :: rest =>
    if c = 'v' ∧ rest.head? = some '=' then
      match grab11 (rest.drop 1) with
      | some g => some g
      | none => searchPat1 rest
    else if c = '/' then
      match grab11 rest with
      | some g => some g
      | none => searchPat1 rest
    else searchPat1 rest

/-- Match `youtu.be/([0-9A-Za-z_-]{11})` at the current position; the
regex `.` matches any character except a newline. -/
def pat2At : List Char → Option (List Char)
  | 'y' :: 'o' :: 'u' :: 't' :: 'u' :: d :: 'b' :: 'e' :: '/' :: rest =>
    if d = '\n' then none else grab11 rest
  | _ => none

/-- `re.search` for the second pattern. -/
def searchPat2 : List Char → Option (List Char)
  | [] => none
  | c :: rest =>
    match pat2At (c :: rest) with
    | some g => some g
    | none => searchPat2 rest

/-- `get_video_id_from_url`: first match of the first pattern, else of the
second, else `None`. -/
def get_video_id_from_url (url : List Char) : Option (List Char) :=
  match searchPat1 url with
  | some g => some g
  | none => searchPat2 url

/-! ### `convert_ms_to_time` (`src/youtube/specific_yt_transcripts.py`) -/

/-- Python `f"{n:02}"` for a nonnegative integer. -/
def pad2 (n : Nat) : List Char :=
  if n < 10 then '0' :: natStr n else natStr n

/-- `convert_ms_to_time`: `int(ms / 1000)` followed by two `divmod`s.
(The Python float division is exact at every integer the script can meet;
over `Nat` it is truncating division.) -/
def convert_ms_to_time (ms : Nat) : List Char :=
  let seconds := ms / 1000
  let m := seconds / 60
  let s := seconds % 60
  let h := m / 60
  let m2 := m % 60
  if h > 0 then pad2 h ++ ":".data ++ pad2 m2 ++ ":".data ++ pad2 s
  else pad2 m2 ++ ":".data ++ pad2 s

/-! ### `poll_transcription` (`src/youtube/specific_yt_transcripts.py`) -/

/-- A decoded polling response: `result.get("status")` together with the
rest of the JSON payload (the function returns the response whole). -/
structure PollResponse where
  status : Option String
  payload : String
deriving DecidableEq, Repr

/-- Observable outcome of running the polling loop with a request budget:
`stillPolling` means the loop had neither returned nor exited after
spending the whole budget; `secondsSlept` counts the `time.sleep(10)`
calls executed before returning. -/
inductive PollResult where
  | completed (r : PollResponse) (secondsSlept : Nat)
  | errorExit (secondsSlept : Nat)
  | stillPolling
deriving DecidableEq, Repr

/-- The `while True` loop of `poll_transcription`, polling response `k`
next, with at most `fuel` further requests allowed. -/
def pollFrom (resp : Nat → PollResponse) : Nat → Nat → PollResult
  | 0, _ => .stillPolling
  | fuel + 1, k =>
    let r := resp k
    if r.status = some "completed" then .completed r (10 * k)
    else if r.status = some "error" then .errorExit (10 * k)
    else pollFrom resp fuel (k + 1)

/-- `poll_transcription` with a budget of `fuel` status requests, where
`resp i` is the response to the `i`-th request. -/
def poll_transcription (resp : Nat → PollResponse) (fuel : Nat) : PollResult :=
  pollFrom resp fuel 0

/-! ### `format_result_as_markdown` (`src/exa_ai/search.py`) -/

/-- A search result dictionary: each field is read with `result.get` and
may be absent. -/
structure ExaResult where
  title : Option (List Char)
  url : Option (List Char)
  published_date : Option (List Char)
  text : Option (List Char)
  source : Option (List Char)

/-- The date shown for a result: reformatted via
`datetime.fromisoformat`/`strftime` (`fmtDate`, an opaque parameter
returning `none` when parsing raises, in which case the original string is
kept). -/
def resultDate (fmtDate : List Char → Option (List Char)) (r : ExaResult) :
    List Char :=
  let pd := r.published_date.getD "Unknown date".data
  if pd ≠ [] ∧ pd ≠ "Unknown date".data then
    match fmtDate pd with
    | some d => d
    | none => pd
  else pd

/-- The preview: first 500 characters with `"..."` appended when longer. -/
def resultPreview (r : ExaResult) : List Char :=
  let text := r.text.getD []
  if text ≠ [] then
    if text.length > 500 then text.take 500 ++ "...".data else text
  else "No text content available".data

/-- The markdown section for result number `i`. -/
def resultSection (fmtDate : List Char → Option (List Char)) (i : Nat)
    (r : ExaResult) : List Char :=
  let url := r.url.getD "No URL".data
  "## ".data ++ natStr i ++ ". ".data ++ r.title.getD "No Title".data ++
  "\n\n".data ++
  "**URL:** [".data ++ url ++ "](".data ++ url ++ ")\n\n".data ++
  "**Date:** ".data ++ resultDate fmtDate r ++ "\n\n".data ++
  "**Source:** ".data ++ r.source.getD "Unknown source".data ++ "\n\n".data ++
  "**Preview:**\n\n".data ++ resultPreview r ++ "\n\n".data ++
  "---\n\n".data

/-- The sections for `enumerate(results, 1)` starting at index `i`. -/
def resultSections (fmtDate : List Char → Option (List Char)) (i : Nat) :
    List ExaResult → List Char
  | [] => []
  | r :: rs => resultSection fmtDate i r ++ resultSections fmtDate (i + 1) rs

/-- `format_result_as_markdown` (`now` is the opaque
`datetime.now().strftime(...)` string). -/
def format_result_as_markdown (fmtDate : List Char → Option (List Char))
    (now : List Char) (results : List ExaResult) (query : List Char) :
    List Char :=
  "# Search Results: ".data ++ query ++ "\n\n".data ++
  "*Search performed on: ".data ++ now ++ "*\n\n".data ++
  resultSections fmtDate 1 results ++
  "*Total results: ".data ++ natStr results.length ++ "*".data

/-! ### Output file naming (`save_results`, `save_videos_to_file`,
`save_transcripts_to_file`, `save_summaries_to_file`) -/

/-- `save_results`'s sanitizer: every character rejected by `c.isalnum()`
becomes `_`, then the result is truncated to 30 characters.  Python's
`str.isalnum` is Unicode-aware (`'é'.isalnum()` is true), so it is passed
here as an opaque parameter, like the other stdlib calls. -/
def safe_query (isalnum : Char → Bool) (query : List Char) : List Char :=
  (query.map fun c => if isalnum c then c else '_').take 30

/-- `os.path.join` for the relative, non-empty components used here. -/
def pathJoin (a b : List Char) : List Char :=
  a ++ "/".data ++ b

/-- The path `save_results` writes to. `scriptDir` is the opaque
`os.path.dirname(__file__)`, `now` the timestamp string. -/
def save_results_filepath (isalnum : Char → Bool)
    (scriptDir query now outputFormat : List Char) : List Char :=
  let resultsDir := pathJoin scriptDir "results".data
  if outputFormat.map Char.toLower = "json".data then
    pathJoin resultsDir (safe_query isalnum query ++ "_".data ++ now ++ ".json".data)
  else
    pathJoin resultsDir (safe_query isalnum query ++ "_".data ++ now ++ ".md".data)

/-- The path `save_videos_to_file` writes to: the raw search term is
interpolated into the f-string unchanged. -/
def save_videos_filename (searchTerm : List Char) : List Char :=
  "results/".data ++ searchTerm ++ "_videos.txt".data

/-- The path the transcript writers use. -/
def save_transcripts_filename (searchTerm : List Char) : List Char :=
  "results/".data ++ searchTerm ++ "_transcripts.txt".data

/-- The path `save_summaries_to_file` writes to. -/
def save_summaries_filename (searchTerm : List Char) : List Char :=
  "results/".data ++ searchTerm ++ "_summaries.md".data

/-! ### API-key startup checks -/

/-- A process environment as seen through `os.getenv`. -/
def Env : Type :=
  String → Option String

/-- Python truthiness of `os.getenv`'s result: `None` and `""` are falsy. -/
def envTruthy (v : Option String) : Bool :=
  match v with
  | none => false
  | some s => !s.isEmpty

/-- Module-level checks of `src/youtube/yt_workflow.py` lines 17-23:
`YOUTUBE_API_KEY` is checked first, then `GEMINI_API_KEY`; a missing key
raises `ValueError`. -/
def yt_workflow_startup (env : Env) : Except String Unit :=
  if !envTruthy (env "YOUTUBE_API_KEY") then
    .error "Please set the YOUTUBE_API_KEY environment variable"
  else if !envTruthy (env "GEMINI_API_KEY") then
    .error "Please set the GEMINI_API_KEY environment variable"
  else .ok ()

/-- Module-level check of
`src/youtube/scripts_for_workflow/yt_summaries.py`. -/
def yt_summaries_startup (env : Env) : Except String Unit :=
  if !envTruthy (env "GEMINI_API_KEY") then
    .error "Please set the GEMINI_API_KEY environment variable"
  else .ok ()

/-- Module-level check of `src/browser_use/main.py`. -/
def browser_use_startup (env : Env) : Except String Unit :=
  if !envTruthy (env "GEMINI_API_KEY") then
    .error "Please set the GEMINI_API_KEY environment variable"
  else .ok ()

/-- Key check inside `get_youtube_videos` of
`src/youtube/scripts_for_workflow/yt_scraper.py`. -/
def yt_scraper_key_check (env : Env) : Except String Unit :=
  if !envTruthy (env "YOUTUBE_API_KEY") then
    .error "Please set the YOUTUBE_API_KEY environment variable"
  else .ok ()

/-- `get_api_key` of `src/exa_ai/search.py`. -/
def get_api_key (env : Env) : Except String String :=
  if !envTruthy (env "EXA_API_KEY") then
    .error "EXA_API_KEY environment variable not found. Please set it in your .env file."
  else .ok ((env "EXA_API_KEY").getD "")

/-- Module-level `genai.configure(api_key=os.environ["GEMINI_API_KEY"])`
of `src/youtube/analyze_transcript_text.py`: `os.environ[...]` raises
`KeyError` only when the variable is absent, and the handler prints and
exits. -/
def analyze_transcript_text_startup (env : Env) : Except String Unit :=
  match env "GEMINI_API_KEY" with
  | none => .error "Error: GEMINI_API_KEY environment variable not set."
  | some _ => .ok ()

/-- The `ASSEMBLYAI_API_KEY` check at the top of `main` in
`src/youtube/specific_yt_transcripts.py` (print + `sys.exit(1)`). -/
def specific_yt_main_key_check (env : Env) : Except String String :=
  if !envTruthy (env "ASSEMBLYAI_API_KEY") then
    .error "Error: ASSEMBLYAI_API_KEY environment variable not set."
  else .ok ((env "ASSEMBLYAI_API_KEY").getD "")

/-- `analyze_transcript_with_gemini` of
`src/youtube/specific_yt_transcripts.py`: when `GEMINI_API_KEY` is
missing the function prints and RETURNS a placeholder string - it does
not raise or exit (`geminiCall` is the opaque successful API call). -/
def analyze_transcript_with_gemini (env : Env) (geminiCall : String → String)
    (transcript : String) : Except String String :=
  if !envTruthy (env "GEMINI_API_KEY") then
    .ok "Could not analyze transcript: Missing Gemini API Key."
  else .ok (geminiCall transcript)

/-- Module level of `src/exa_ai/tweets_to_markdown.py`:
`exa = Exa(os.getenv("EXA_API_KEY"))` - the script itself performs no
check and hands the possibly-missing key to the external constructor. -/
def tweets_to_markdown_startup (env : Env) : Except String (Option String) :=
  .ok (env "EXA_API_KEY")

/-! ### `search_exa` (`src/exa_ai/search.py`) -/

/-- The `search_params` dictionary built by `search_exa`; a `none` field
is an absent key. -/
structure ExaSearchParams where
  query : List Char
  num_results : Nat
  text : Bool
  include_domains : Option (List (List Char)) := none
  exclude_domains : Option (List (List Char)) := none
  start_published_date : Option (List Char) := none
  end_published_date : Option (List Char) := none
  use_autoprompt : Option Bool := none
deriving DecidableEq, Repr

/-- The parameter-building part of `search_exa`: returns the dictionary
sent to the API together with the caller's `exclude_domains` list as it
stands after the call (`exclude_domains.append(...)` mutates it). -/
def search_exa_params (query : List Char) (numResults : Nat)
    (includeDomains excludeDomains : Option (List (List Char)))
    (startDate endDate : Option (List Char)) (text useAutoprompt : Bool) :
    ExaSearchParams × Option (List (List Char)) :=
  let base : ExaSearchParams :=
    { query := query, num_results := numResults, text := text }
  let withInclude :=
    match includeDomains with
    | some l => if l ≠ [] then { base with include_domains := some l } else base
    | none => base
  let step :=
    match excludeDomains with
    | some l =>
      if l ≠ [] then
        ({ withInclude with
            exclude_domains := some (l ++ ["en.wikipedia.org".data]) },
          some (l ++ ["en.wikipedia.org".data]))
      else
        ({ withInclude with exclude_domains := some ["en.wikipedia.org".data] },
          some l)
    | none =>
      ({ withInclude with exclude_domains := some ["en.wikipedia.org".data] },
        none)
  let withStart :=
    match startDate with
    | some d => if d ≠ [] then { step.1 with start_published_date := some d } else step.1
    | none => step.1
  let withEnd :=
    match endDate with
    | some d => if d ≠ [] then { withStart with end_published_date := some d } else withStart
    | none => withStart
  let final :=
    if useAutoprompt then { withEnd with use_autoprompt := some true } else withEnd
  (final, step.2)

theorem splitLines_ne_nil (l : List Char) : splitLines l ≠ [] := by
  induction l with
  | nil => simp [splitLines]
  | cons c rest ih =>
    simp only [splitLines]
    split
    · simp
    · split
      · simp
      · simp

/-- Splitting distributes over a newline that separates two pieces. -/
theorem splitLines_append_cons (a b : List Char) :
    splitLines (a ++ '\n' :: b) = splitLines a ++ splitLines b := by
  induction a with
  | nil => simp [splitLines]
  | cons c rest ih =>
    by_cases hc : c = '\n'
    · subst hc
      show splitLines ('\n' :: (rest ++ '\n' :: b)) = splitLines ('\n' :: rest) ++ _
      rw [splitLines, if_pos rfl, ih, splitLines, if_pos rfl]
      rfl
    · show splitLines (c :: (rest ++ '\n' :: b)) = splitLines (c :: rest) ++ _
      rw [splitLines, if_neg hc, ih]
      conv_rhs => rw [splitLines, if_neg hc]
      cases h : splitLines rest with
      | nil => exact absurd h (splitLines_ne_nil rest)
      | cons l ls => simp

/-- A newline-free piece splits into a single line. -/
theorem splitLines_no_nl {a : List Char} (h : '\n' ∉ a) :
    splitLines a = [a] := by
  induction a with
  | nil => simp [splitLines]
  | cons c rest ih =>
    have hc : c ≠ '\n' := fun hcn => h (hcn ▸ List.mem_cons_self c rest)
    have hr : '\n' ∉ rest := fun hm => h (List.mem_cons_of_mem c hm)
    rw [splitLines, if_neg hc, ih hr]

/-- Re-joining the split lines with newlines recovers the original text. -/
theorem joinNl_splitLines (l : List Char) :
    joinNl (splitLines l) = l := by
  induction l with
  | nil => simp [splitLines, joinNl]
  | cons c rest ih =>
    by_cases hc : c = '\n'
    · subst hc
      rw [splitLines, if_pos rfl]
      cases h : splitLines rest with
      | nil => exact absurd h (splitLines_ne_nil rest)
      | cons l ls =>
        rw [h] at ih
        rw [joinNl]
        simpa using ih
    · rw [splitLines, if_neg hc]
      cases h : splitLines rest with
      | nil => exact absurd h (splitLines_ne_nil rest)
      | cons l ls =>
        rw [h] at ih
        cases ls with
        | nil => rw [joinNl]; rw [joinNl] at ih; exact congrArg (c :: ·) ih
        | cons l2 ls2 =>
          rw [joinNl] at ih ⊢
          rw [← ih]
          simp

theorem pstrip_eq_self {l : List Char} (h : l ≠ [])
    (h1 : isPyWs (l.head h) = false)
    (h2 : isPyWs (l.getLast h) = false) : pstrip l = l := by
  have hdrop : l.dropWhile isPyWs = l := by
    obtain ⟨c, rest, rfl⟩ := List.exists_cons_of_ne_nil h
    rw [List.head_cons] at h1
    exact List.dropWhile_cons_of_neg (by simp [h1])
  unfold pstrip
  rw [hdrop]
  rcases List.eq_nil_or_concat l with rfl | ⟨ys, d, rfl⟩
  · exact absurd rfl h
  · have hd : isPyWs d = false := by
      simpa [List.getLast_concat] using h2
    rw [List.concat_eq_append, List.reverse_concat,
      List.dropWhile_cons_of_neg (by simp [hd])]
    simp [List.concat_eq_append]


theorem dropWhile_append_last (x : List Char) (c : Char) (h : isPyWs c = false) :
    List.dropWhile isPyWs (x ++ [c]) = List.dropWhile isPyWs x ++ [c] := by
  induction x with
  | nil => simp [List.dropWhile, h]
  | cons a x' ih =>
    by_cases ha : isPyWs a = true
    · simp [List.dropWhile_cons_of_pos, ha, ih]
    · simp only [Bool.not_eq_true] at ha
      simp [List.dropWhile_cons_of_neg, ha]

/-- Stripping a line whose first character is not whitespace keeps that
character and right-strips the remainder. -/
theorem pstrip_cons (c : Char) (l : List Char) (h : isPyWs c = false) :
    pstrip (c :: l) = c :: (l.reverse.dropWhile isPyWs).reverse := by
  unfold pstrip
  rw [List.dropWhile_cons_of_neg (by simp [h]), List.reverse_cons,
    dropWhile_append_last _ _ h]
  simp

/-- Stripping a line made of a non-blank concrete prefix and a suffix with
a non-whitespace last character is the identity. -/
theorem pstrip_append_of (a t : List Char) (ha : a ≠ [])
    (h1 : isPyWs (a.head ha) = false) (ht : t ≠ [])
    (h2 : isPyWs (t.getLast ht) = false) : pstrip (a ++ t) = a ++ t := by
  have hne : a ++ t ≠ [] := by simp [ha]
  refine pstrip_eq_self hne ?_ ?_
  · rw [List.head_append_of_ne_nil ha]
    exact h1
  · rw [List.getLast_append' a t ht]
    exact h2

/-- Merging a newline-free prefix into the first line of the remainder. -/
theorem splitLines_append_no_nl (a b : List Char) (h : '\n' ∉ a) :
    splitLines (a ++ b) = (a ++ (splitLines b).headI) :: (splitLines b).tail := by
  induction a with
  | nil =>
    cases hb : splitLines b with
    | nil => exact absurd hb (splitLines_ne_nil b)
    | cons l ls => simp [hb]
  | cons c rest ih =>
    have hc : c ≠ '\n' := fun hcn => h (hcn ▸ List.mem_cons_self c rest)
    have hr : '\n' ∉ rest := fun hm => h (List.mem_cons_of_mem c hm)
    show splitLines (c :: (rest ++ b)) = _
    rw [splitLines, if_neg hc, ih hr]
    simp


theorem foldl_goodTr (ls : List (List Char)) (st : RState) (hread : st.reading = true)
    (h : ∀ l ∈ ls, goodTrLine l) :
    ls.foldl (fun st line => readStep st (pstrip line)) st =
      { st with curTr := st.curTr ++ ls } := by
  induction ls generalizing st with
  | nil => simp
  | cons l ls ih =>
    obtain ⟨hp, hne, hv, hti, hu, htr, heq⟩ := h l (List.mem_cons_self _ _)
    rw [List.foldl_cons]
    have hstep : readStep st (pstrip l) = { st with curTr := st.curTr ++ [l] } := by
      rw [hp]
      unfold readStep
      rw [if_neg (by simp [hv]), if_neg (by simp [hti]), if_neg (by simp [hu]),
        if_neg htr, if_pos (by simp [hread, hne, heq])]
    rw [hstep,
      ih { st with curTr := st.curTr ++ [l] } hread
        (fun l' hl' => h l' (List.mem_cons_of_mem _ hl'))]
    simp

/-- A stripped line that matches none of the markers is ignored when the
reader is not inside a transcript section. -/
theorem readStep_other (st : RState) (line : List Char) (hr : st.reading = false)
    (h1 : "Video #".data.isPrefixOf line = false)
    (h2 : "Title: ".data.isPrefixOf line = false)
    (h3 : "URL: ".data.isPrefixOf line = false)
    (h4 : line ≠ "TRANSCRIPT:".data) :
    readStep st line = st := by
  unfold readStep
  rw [if_neg (by simp [h1]), if_neg (by simp [h2]), if_neg (by simp [h3]),
    if_neg h4, if_neg (by simp [hr])]

/-- The lines of the file written for a single video. -/
theorem save_singleton_split (s t u tr : List Char)
    (hs : '\n' ∉ s) (ht : '\n' ∉ t) (hu : '\n' ∉ u) :
    splitLines (save_transcripts_content s [⟨t, u, tr⟩]) =
      ["YouTube Video Transcripts for Search Term: '".data ++ (s ++ "'".data),
       eq80, [],
       "Video #1".data,
       "Title: ".data ++ t,
       "URL: ".data ++ u,
       dash80, [],
       "TRANSCRIPT:".data] ++ splitLines tr ++ [eq80, [], []] := by
  have eS : ∀ b, splitLines (s ++ b) = (s ++ (splitLines b).headI) :: (splitLines b).tail :=
    fun b => splitLines_append_no_nl s b hs
  have eT : ∀ b, splitLines (t ++ b) = (t ++ (splitLines b).headI) :: (splitLines b).tail :=
    fun b => splitLines_append_no_nl t b ht
  have eU : ∀ b, splitLines (u ++ b) = (u ++ (splitLines b).headI) :: (splitLines b).tail :=
    fun b => splitLines_append_no_nl u b hu
  have eTr : ∀ b, splitLines (tr ++ '\n' :: b) = splitLines tr ++ splitLines b :=
    fun b => splitLines_append_cons tr b
  have hn1 : natStr 1 = ['1'] := rfl
  simp only [save_transcripts_content, transcriptSections, transcriptSection,
    hn1, eq80, dash80, List.append_nil, List.append_assoc]
  simp [splitLines, eS, eT, eU, eTr, List.headI]

theorem readStep_eq80 (st : RState) : readStep st (pstrip eq80) = st := by
  have hpe : pstrip eq80 = eq80 := by decide
  rw [hpe]
  unfold readStep
  rw [if_neg (by decide), if_neg (by decide), if_neg (by decide), if_neg (by decide),
    if_neg (by simp [show "=".data.isPrefixOf eq80 = true from by decide])]

theorem readStep_empty (st : RState) : readStep st (pstrip []) = st := by
  show readStep st [] = st
  unfold readStep
  rw [if_neg (by decide), if_neg (by decide), if_neg (by decide), if_neg (by decide),
    if_neg (by simp)]

theorem joinNl_ne_nil (ls : List (List Char)) (h : ls ≠ [])
    (h2 : ∀ l ∈ ls, l ≠ []) : joinNl ls ≠ [] := by
  match ls with
  | [] => exact absurd rfl h
  | [l] => exact h2 l (List.mem_cons_self _ _)
  | l :: l2 :: ls' =>
    rw [joinNl]
    rcases l with _ | ⟨c, l'⟩
    · simp
    · simp

theorem readStep_inv (st : RState) (line : List Char) (h : ReaderInv st) :
    ReaderInv (readStep st line) := by
  obtain ⟨hv, hc⟩ := h
  unfold readStep
  split_ifs with h1 hf h2 h3 h4 h5
  · refine ⟨?_, by intro l hl; simp at hl⟩
    intro r hr
    rcases List.mem_append.mp hr with hr | hr
    · exact hv r hr
    · have hr' : r = flushRecord st.cur st.curTr := by simpa using hr
      subst hr'
      obtain ⟨ha, hb⟩ : st.cur.nonEmpty = true ∧ st.curTr.isEmpty = false := by
        simpa using hf
      constructor
      · simpa [CurVideo.nonEmpty, Option.isSome_iff_exists] using ha
      · have hct : st.curTr ≠ [] := by simpa using hb
        exact joinNl_ne_nil st.curTr hct hc
  · exact ⟨fun r hr => hv r hr, fun l hl => by simp at hl⟩
  · exact ⟨fun r hr => hv r hr, fun l hl => hc l hl⟩
  · exact ⟨fun r hr => hv r hr, fun l hl => hc l hl⟩
  · exact ⟨fun r hr => hv r hr, fun l hl => hc l hl⟩
  · refine ⟨fun r hr => hv r hr, fun l hl => ?_⟩
    have hl' : l ∈ st.curTr ++ [line] := hl
    rcases List.mem_append.mp hl' with hm | hm
    · exact hc l hm
    · have hle : l = line := by simpa using hm
      subst hle
      obtain ⟨⟨-, hne⟩, -⟩ : (st.reading = true ∧ l.isEmpty = false) ∧
          "=".data.isPrefixOf l = false := by simpa using h5
      simpa using hne
  · exact ⟨fun r hr => hv r hr, fun l hl => hc l hl⟩

theorem foldl_inv (ls : List (List Char)) (st : RState) (h : ReaderInv st) :
    ReaderInv (ls.foldl (fun st line => readStep st (pstrip line)) st) := by
  induction ls generalizing st with
  | nil => exact h
  | cons l ls ih => exact ih _ (readStep_inv st (pstrip l) h)

theorem read_lines_inv (ls : List (List Char)) (r : TRecord)
    (hr : r ∈ read_transcripts_lines ls) :
    (r.title.isSome ∨ r.url.isSome) ∧ r.transcript ≠ [] := by
  have hinv := foldl_inv ls ⟨[], {}, [], false⟩ (by constructor <;> simp)
  set st := ls.foldl (fun st line => readStep st (pstrip line)) ⟨[], {}, [], false⟩ with hst
  unfold read_transcripts_lines at hr
  rw [← hst] at hr
  unfold readFinish at hr
  obtain ⟨hv, hc⟩ := hinv
  split_ifs at hr with hf
  · rcases List.mem_append.mp hr with hr | hr
    · exact hv r hr
    · have hr' : r = flushRecord st.cur st.curTr := by simpa using hr
      subst hr'
      obtain ⟨ha, hb⟩ : st.cur.nonEmpty = true ∧ st.curTr.isEmpty = false := by
        simpa using hf
      constructor
      · simpa [CurVideo.nonEmpty, Option.isSome_iff_exists] using ha
      · have hct : st.curTr ≠ [] := by simpa using hb
        exact joinNl_ne_nil st.curTr hct hc
  · exact hv r hr

/-- Appending a `Video #` sentinel at end of input leaves the parse
unchanged: the end-of-input flush follows the same rule as the sentinel
flush. -/
theorem read_append_sentinel (ls : List (List Char)) :
    read_transcripts_lines (ls ++ ["Video #".data]) = read_transcripts_lines ls := by
  unfold read_transcripts_lines
  rw [List.foldl_append]
  generalize (ls.foldl (fun st line => readStep st (pstrip line))
    ⟨[], {}, [], false⟩ : RState) = st
  simp only [List.foldl_cons, List.foldl_nil]
  have hp : pstrip "Video #".data = "Video #".data := by decide
  rw [hp]
  unfold readStep
  rw [if_pos (show ("Video #".data.isPrefixOf "Video #".data) = true from by decide)]
  unfold readFinish
  by_cases hc : (st.cur.nonEmpty && !st.curTr.isEmpty) = true
  · simp only [hc, if_true]
    simp [CurVideo.nonEmpty]
  · simp only [Bool.not_eq_true] at hc
    simp only [hc, if_false]
    simp [CurVideo.nonEmpty]

/-- Lines between two `Video #` markers that contain no `TRANSCRIPT:`
sentinel never change the flushed output, the pending-transcript buffer
(which stays empty), or the reading flag (which stays off). -/
theorem foldl_mid (mid : List (List Char)) (st : RState)
    (hr : st.reading = false) (hct : st.curTr = [])
    (hmid : ∀ l ∈ mid, pstrip l ≠ "TRANSCRIPT:".data ∧
      "Video #".data.isPrefixOf (pstrip l) = false) :
    ∃ cur, mid.foldl (fun st line => readStep st (pstrip line)) st =
      ⟨st.videos, cur, [], false⟩ := by
  induction mid generalizing st with
  | nil =>
    refine ⟨st.cur, ?_⟩
    cases st
    simp_all
  | cons l mid' ih =>
    obtain ⟨hts, hvp⟩ := hmid l (List.mem_cons_self _ _)
    rw [List.foldl_cons]
    have hstep : ∃ cur2, readStep st (pstrip l) =
        ⟨st.videos, cur2, [], false⟩ := by
      unfold readStep
      rw [if_neg (by simp [hvp])]
      split_ifs with h2 h3 h4
      · exact ⟨{ st.cur with title := some ((pstrip l).drop 7) }, by cases st; simp_all⟩
      · exact ⟨{ st.cur with url := some ((pstrip l).drop 5) }, by cases st; simp_all⟩
      · rw [hr] at h4; simp at h4
      · exact ⟨st.cur, by cases st; simp_all⟩
    obtain ⟨cur2, hstep⟩ := hstep
    rw [hstep]
    obtain ⟨cur3, hrec⟩ := ih ⟨st.videos, cur2, [], false⟩ rfl rfl
      (fun l' hl' => hmid l' (List.mem_cons_of_mem _ hl'))
    exact ⟨cur3, hrec⟩

/-- A `Video #` marker line resets the accumulator; if the pending
transcript buffer is empty nothing is flushed. -/
theorem readStep_video_empty (st : RState) (vk : List Char)
    (hv : "Video #".data.isPrefixOf (pstrip vk) = true)
    (hct : st.curTr = []) :
    readStep st (pstrip vk) = ⟨st.videos, {}, [], false⟩ := by
  unfold readStep
  rw [if_pos hv]
  simp [hct]

/-- C6: a record section - a `Video #` marker line followed by lines
(e.g. its `Title:`/`URL:` header) containing no `TRANSCRIPT:` sentinel -
contributes nothing to `read_transcripts_file`'s output: the parse of the
file with the section's body removed is identical, whether the section is
ended by the next `Video #` marker or by the end of the input. -/
theorem read_drop_no_transcript_section (pre mid rest : List (List Char))
    (vk : List Char)
    (hvk : "Video #".data.isPrefixOf (pstrip vk) = true)
    (hmid : ∀ l ∈ mid, pstrip l ≠ "TRANSCRIPT:".data ∧
      "Video #".data.isPrefixOf (pstrip l) = false)
    (hrest : rest = [] ∨ ∃ vj post, rest = vj :: post ∧
      "Video #".data.isPrefixOf (pstrip vj) = true) :
    read_transcripts_lines (pre ++ vk :: (mid ++ rest)) =
      read_transcripts_lines (pre ++ vk :: rest) := by
  have hshape : ∃ vs, readStep ((pre.foldl (fun st line => readStep st (pstrip line))
      ⟨[], {}, [], false⟩ : RState)) (pstrip vk) = ⟨vs, {}, [], false⟩ := by
    unfold readStep
    rw [if_pos hvk]
    exact ⟨_, rfl⟩
  obtain ⟨vs, hstv⟩ := hshape
  unfold read_transcripts_lines
  rw [show pre ++ vk :: (mid ++ rest) = (pre ++ [vk]) ++ (mid ++ rest) by simp,
    show pre ++ vk :: rest = (pre ++ [vk]) ++ rest by simp]
  simp only [List.foldl_append, List.foldl_cons, List.foldl_nil]
  rw [hstv]
  obtain ⟨cur, hmidres⟩ := foldl_mid mid ⟨vs, {}, [], false⟩ rfl rfl hmid
  rw [hmidres]
  rcases hrest with rfl | ⟨vj, post, rfl, hvj⟩
  · simp [readFinish]
  · rw [List.foldl_cons, List.foldl_cons,
      readStep_video_empty ⟨vs, cur, [], false⟩ vj hvj rfl,
      readStep_video_empty ⟨vs, {}, [], false⟩ vj hvj rfl]

/-! ### Theorems about `poll_transcription` -/

theorem pollFrom_completed (resp : Nat → PollResponse) :
    ∀ (fuel k n : Nat), k ≤ n → n < k + fuel →
    (∀ i, k ≤ i → i < n →
      (resp i).status ≠ some "completed" ∧ (resp i).status ≠ some "error") →
    (resp n).status = some "completed" →
    pollFrom resp fuel k = .completed (resp n) (10 * n) := by
  intro fuel
  induction fuel with
  | zero => intro k n hk hn; omega
  | succ fuel ih =>
    intro k n hk hn hmid hdone
    rcases Nat.eq_or_lt_of_le hk with rfl | hlt
    · rw [pollFrom, if_pos hdone]
    · obtain ⟨hc, he⟩ := hmid k (Nat.le_refl k) hlt
      rw [pollFrom, if_neg hc, if_neg he]
      exact ih (k + 1) n hlt (by omega)
        (fun i hi1 hi2 => hmid i (by omega) hi2) hdone

theorem pollFrom_error (resp : Nat → PollResponse) :
    ∀ (fuel k n : Nat), k ≤ n → n < k + fuel →
    (∀ i, k ≤ i → i < n →
      (resp i).status ≠ some "completed" ∧ (resp i).status ≠ some "error") →
    (resp n).status = some "error" →
    pollFrom resp fuel k = .errorExit (10 * n) := by
  intro fuel
  induction fuel with
  | zero => intro k n hk hn; omega
  | succ fuel ih =>
    intro k n hk hn hmid hdone
    rcases Nat.eq_or_lt_of_le hk with rfl | hlt
    · by_cases hc : (resp k).status = some "completed"
      · rw [hdone] at hc; simp at hc
      · rw [pollFrom, if_neg hc, if_pos hdone]
    · obtain ⟨hc, he⟩ := hmid k (Nat.le_refl k) hlt
      rw [pollFrom, if_neg hc, if_neg he]
      exact ih (k + 1) n hlt (by omega)
        (fun i hi1 hi2 => hmid i (by omega) hi2) hdone

theorem pollFrom_never (resp : Nat → PollResponse)
    (h : ∀ i, (resp i).status ≠ some "completed" ∧ (resp i).status ≠ some "error") :
    ∀ (fuel k : Nat), pollFrom resp fuel k = .stillPolling := by
  intro fuel
  induction fuel with
  | zero => intro k; rfl
  | succ fuel ih =>
    intro k
    obtain ⟨hc, he⟩ := h k
    rw [pollFrom, if_neg hc, if_neg he]
    exact ih (k + 1)

/-- C5: `poll_transcription` returns the response whole as soon as a
status check reports `"completed"`, exits the process on `"error"`, and
otherwise keeps sleeping 10 seconds per check: whatever request budget it
is given, it is still polling at the end of it when no check ever reports
one of the two terminal statuses — there is no maximum attempt count or
timeout. -/
theorem poll_transcription_spec :
    (∀ (resp : Nat → PollResponse) (n fuel : Nat),
      (∀ i, i < n →
        (resp i).status ≠ some "completed" ∧ (resp i).status ≠ some "error") →
      (resp n).status = some "completed" → n < fuel →
      poll_transcription resp fuel = .completed (resp n) (10 * n)) ∧
    (∀ (resp : Nat → PollResponse) (n fuel : Nat),
      (∀ i, i < n →
        (resp i).status ≠ some "completed" ∧ (resp i).status ≠ some "error") →
      (resp n).status = some "error" → n < fuel →
      poll_transcription resp fuel = .errorExit (10 * n)) ∧
    (∀ (resp : Nat → PollResponse) (fuel : Nat),
      (∀ i, (resp i).status ≠ some "completed" ∧ (resp i).status ≠ some "error") →
      poll_transcription resp fuel = .stillPolling) := by
  refine ⟨?_, ?_, ?_⟩
  · intro resp n fuel hmid hdone hfuel
    exact pollFrom_completed resp fuel 0 n (Nat.zero_le n) (by omega)
      (fun i _ hi => hmid i hi) hdone
  · intro resp n fuel hmid hdone hfuel
    exact pollFrom_error resp fuel 0 n (Nat.zero_le n) (by omega)
      (fun i _ hi => hmid i hi) hdone
  · intro resp fuel h
    exact pollFrom_never resp h fuel 0

/-- Witness for C5 at a concrete response sequence: the third check
completes after two 10-second sleeps, and a forever-queued job is still
polling after a budget of 100 checks. -/
theorem poll_transcription_spec_witness :
    poll_transcription
      (fun i => if i = 2 then ⟨some "completed", "R"⟩ else ⟨some "queued", ""⟩) 5 =
      .completed ⟨some "completed", "R"⟩ 20 ∧
    poll_transcription (fun _ => ⟨some "queued", ""⟩) 100 = .stillPolling := by
  constructor
  · exact poll_transcription_spec.1
      (fun i => if i = 2 then ⟨some "completed", "R"⟩ else ⟨some "queued", ""⟩)
      2 5 (by decide) (by decide) (by decide)
  · exact poll_transcription_spec.2.2 (fun _ => ⟨some "queued", ""⟩) 100
      (fun i => ⟨by simp, by simp⟩)

/-! ### Theorems about `convert_ms_to_time` -/

/-- C7: `convert_ms_to_time` maps 0 to `"00:00"`, 61000 to `"01:01"` and
3661000 to `"01:01:01"` — `mm:ss` when the hour component is zero,
`hh:mm:ss` otherwise, with zero-padded two-digit fields. -/
theorem convert_ms_to_time_spec_values :
    convert_ms_to_time 0 = "00:00".data ∧
    convert_ms_to_time 61000 = "01:01".data ∧
    convert_ms_to_time 3661000 = "01:01:01".data := by
  refine ⟨?_, ?_, ?_⟩ <;> decide

/-! ### Theorems about `get_video_id_from_url` -/

theorem grab11_of_id (id : List Char) (h1 : id.length = 11)
    (h2 : id.all isIdChar = true) : grab11 id = some id := by
  have ht : id.take 11 = id := List.take_of_length_le (by omega)
  unfold grab11
  rw [ht, if_pos ⟨h2, h1⟩]

/-- C3 counterexample: a string that is not a YouTube URL at all still
yields an "ID" (the first pattern matches any `/` followed by eleven ID
characters), instead of the `None` sentinel the claim promises. -/
theorem get_video_id_from_url_counterexample :
    get_video_id_from_url "https://example.com/abcdefghijkl".data =
      some "abcdefghijk".data := by
  decide

/-- C3 (amended): the extractor returns the 11-character ID for canonical
long-form (`https://www.youtube.com/watch?v=<id>`) and short-form
(`https://youtu.be/<id>`) URLs, and returns the `None` sentinel only for
strings with no `v=` or `/` followed by eleven ID characters (e.g.
`"hello world"`); an unrelated string that does contain such a substring
yields a spurious ID. -/
theorem get_video_id_from_url_amended :
    (∀ id : List Char, id.length = 11 → id.all isIdChar = true →
      get_video_id_from_url ("https://www.youtube.com/watch?v=".data ++ id) =
        some id) ∧
    (∀ id : List Char, id.length = 11 → id.all isIdChar = true →
      get_video_id_from_url ("https://youtu.be/".data ++ id) = some id) ∧
    get_video_id_from_url "hello world".data = none ∧
    get_video_id_from_url "notyoutube/abcdefghijk?".data =
      some "abcdefghijk".data := by
  refine ⟨?_, ?_, by decide, by decide⟩
  · intro id h1 h2
    have key : searchPat1 ("https://www.youtube.com/watch?v=".data ++ id) =
        (match grab11 id with
         | some g => some g
         | none => searchPat1 ('=' :: id)) := rfl
    unfold get_video_id_from_url
    rw [key, grab11_of_id id h1 h2]
  · intro id h1 h2
    have key : searchPat1 ("https://youtu.be/".data ++ id) =
        (match grab11 id with
         | some g => some g
         | none => searchPat1 id) := rfl
    unfold get_video_id_from_url
    rw [key, grab11_of_id id h1 h2]

/-- Witness for C3 at the concrete ID `dQw4w9WgXcQ`. -/
theorem get_video_id_from_url_amended_witness :
    get_video_id_from_url
      ("https://www.youtube.com/watch?v=".data ++ "dQw4w9WgXcQ".data) =
      some "dQw4w9WgXcQ".data ∧
    get_video_id_from_url ("https://youtu.be/".data ++ "dQw4w9WgXcQ".data) =
      some "dQw4w9WgXcQ".data := by
  constructor
  · exact get_video_id_from_url_amended.1 "dQw4w9WgXcQ".data (by decide) (by decide)
  · exact get_video_id_from_url_amended.2.1 "dQw4w9WgXcQ".data (by decide) (by decide)

/-! ### Theorems about the API-key checks -/

/-- C4 counterexample: with every key absent, `tweets_to_markdown.py`
proceeds and hands `None` to the external `Exa` constructor instead of
failing itself, and with `GEMINI_API_KEY` absent the Gemini analysis step
of `specific_yt_transcripts.py` returns a placeholder string instead of
failing. -/
theorem api_key_checks_counterexample :
    tweets_to_markdown_startup (fun _ => none) = .ok none ∧
    analyze_transcript_with_gemini (fun _ => none) (fun _ => "analysis") "t" =
      .ok "Could not analyze transcript: Missing Gemini API Key." := by
  exact ⟨rfl, rfl⟩

/-- C4 (amended): every script that checks a required key at startup
(`yt_workflow.py`: YOUTUBE then GEMINI; `yt_summaries.py`,
`browser_use/main.py`, `analyze_transcript_text.py`: GEMINI;
`yt_scraper.py`: YOUTUBE; `search.py`: EXA; `specific_yt_transcripts.py`:
ASSEMBLYAI) fails immediately with its descriptive message when that key
is absent; but `tweets_to_markdown.py` performs no check at all, and
`specific_yt_transcripts.py` handles a missing `GEMINI_API_KEY` in its
analysis step by returning a placeholder string rather than failing. -/
theorem api_key_checks_amended :
    yt_workflow_startup (fun _ => none) =
      .error "Please set the YOUTUBE_API_KEY environment variable" ∧
    yt_workflow_startup (fun k => if k = "YOUTUBE_API_KEY" then some "y" else none) =
      .error "Please set the GEMINI_API_KEY environment variable" ∧
    yt_summaries_startup (fun _ => none) =
      .error "Please set the GEMINI_API_KEY environment variable" ∧
    browser_use_startup (fun _ => none) =
      .error "Please set the GEMINI_API_KEY environment variable" ∧
    yt_scraper_key_check (fun _ => none) =
      .error "Please set the YOUTUBE_API_KEY environment variable" ∧
    get_api_key (fun _ => none) =
      .error "EXA_API_KEY environment variable not found. Please set it in your .env file." ∧
    analyze_transcript_text_startup (fun _ => none) =
      .error "Error: GEMINI_API_KEY environment variable not set." ∧
    specific_yt_main_key_check (fun _ => none) =
      .error "Error: ASSEMBLYAI_API_KEY environment variable not set." ∧
    tweets_to_markdown_startup (fun _ => none) = .ok none ∧
    analyze_transcript_with_gemini (fun _ => none) (fun _ => "analysis") "t" =
      .ok "Could not analyze transcript: Missing Gemini API Key." := by
  refine ⟨rfl, ?_, rfl, rfl, rfl, rfl, rfl, rfl, rfl, rfl⟩
  rfl

/-! ### Theorems about output file naming -/

/-- C9 counterexample: `save_videos_to_file` interpolates the raw query
into its path, so a query containing `/` is not sanitized — the produced
name differs from the one built from the sanitized query.  The query
`"a/b"` is pure ASCII, where every model of Python's `str.isalnum`
coincides with the ASCII test used to instantiate the sanitizer here
(`'a'`/`'b'` alphanumeric, `'/'` not). -/
theorem save_videos_filename_counterexample :
    save_videos_filename "a/b".data = "results/a/b_videos.txt".data ∧
    safe_query (fun c => c.isAlphanum) "a/b".data = "a_b".data ∧
    save_videos_filename "a/b".data ≠
      "results/".data ++ safe_query (fun c => c.isAlphanum) "a/b".data ++
        "_videos.txt".data := by
  exact ⟨rfl, rfl, by decide⟩

/-- C9 (amended): only `search.py` sanitizes the query — for every model
`isalnum` of Python's `str.isalnum`, `safe_query` yields at most 30
characters, each of which is either a character of the query that
`isalnum` accepted or `_`, and `save_results` writes
`<script dir>/results/<sanitized>_<timestamp>.<ext>`; the YouTube scripts
interpolate the raw search term unchanged into
`results/<term>_videos.txt`, `results/<term>_transcripts.txt` and
`results/<term>_summaries.md`. -/
theorem output_paths_amended :
    (∀ (isalnum : Char → Bool) (query : List Char),
      (∀ c ∈ safe_query isalnum query,
        (isalnum c = true ∧ c ∈ query) ∨ c = '_') ∧
      (safe_query isalnum query).length ≤ 30) ∧
    (∀ (isalnum : Char → Bool) (scriptDir query now fmt : List Char),
      save_results_filepath isalnum scriptDir query now fmt =
        scriptDir ++ "/results/".data ++
          (safe_query isalnum query ++ "_".data ++ now ++
            (if fmt.map Char.toLower = "json".data then ".json".data
             else ".md".data))) ∧
    (∀ t : List Char,
      save_videos_filename t = "results/".data ++ t ++ "_videos.txt".data ∧
      save_transcripts_filename t = "results/".data ++ t ++ "_transcripts.txt".data ∧
      save_summaries_filename t = "results/".data ++ t ++ "_summaries.md".data) := by
  refine ⟨?_, ?_, fun t => ⟨rfl, rfl, rfl⟩⟩
  · intro isalnum query
    constructor
    · intro c hc
      have hc' : c ∈ query.map fun c => if isalnum c then c else '_' :=
        List.mem_of_mem_take hc
      obtain ⟨a, ha, rfl⟩ := List.mem_map.mp hc'
      by_cases h : isalnum a = true
      · exact Or.inl (by simp [h, ha])
      · refine Or.inr ?_
        simp only [Bool.not_eq_true] at h
        simp [h]
    · have hlen := List.length_take 30 (query.map fun c => if isalnum c then c else '_')
      unfold safe_query
      omega
  · intro isalnum scriptDir query now fmt
    unfold save_results_filepath pathJoin
    split_ifs with h
    · simp [List.append_assoc]
    · simp [List.append_assoc]

/-- Witness for C9 at concrete inputs, instantiating the opaque
`str.isalnum` with the ASCII test (faithful on the ASCII inputs used). -/
theorem output_paths_amended_witness :
    (∀ c ∈ safe_query (fun c => c.isAlphanum) "a b!".data,
      (Char.isAlphanum c = true ∧ c ∈ "a b!".data) ∨ c = '_') ∧
    save_results_filepath (fun c => c.isAlphanum)
        "/x".data "a b!".data "T".data "markdown".data =
      "/x".data ++ "/results/".data ++
        (safe_query (fun c => c.isAlphanum) "a b!".data ++ "_".data ++
          "T".data ++ ".md".data) := by
  constructor
  · exact (output_paths_amended.1 (fun c => c.isAlphanum) "a b!".data).1
  · exact (output_paths_amended.2.1 (fun c => c.isAlphanum)
      "/x".data "a b!".data "T".data "markdown".data).trans (by decide)

/-! ### Theorems about `search_exa` -/

/-- The `exclude_domains` entry of the parameters sent, and the caller's
list after the call, as functions of the argument. -/
theorem search_exa_exclude_eq (q : List Char) (n : Nat)
    (incl excl : Option (List (List Char))) (sd ed : Option (List Char))
    (tx ap : Bool) :
    (search_exa_params q n incl excl sd ed tx ap).1.exclude_domains =
      (match excl with
       | some l =>
         if l ≠ [] then some (l ++ ["en.wikipedia.org".data])
         else some ["en.wikipedia.org".data]
       | none => some ["en.wikipedia.org".data]) ∧
    (search_exa_params q n incl excl sd ed tx ap).2 =
      (match excl with
       | some l => if l ≠ [] then some (l ++ ["en.wikipedia.org".data]) else some l
       | none => none) := by
  unfold search_exa_params
  rcases excl with _ | l <;> rcases incl with _ | li <;>
    rcases sd with _ | d1 <;> rcases ed with _ | d2 <;>
    split_ifs <;>
    simp_all [apply_ite ExaSearchParams.exclude_domains,
      apply_ite (Prod.fst (α := ExaSearchParams) (β := Option (List (List Char)))),
      apply_ite (Prod.snd (α := ExaSearchParams) (β := Option (List (List Char))))]

/-- C10 counterexample: a caller-supplied EMPTY `exclude_domains` list is
falsy in Python, so the code takes the "none supplied" branch: nothing is
appended to the caller's list, which stays `[]`, contrary to the claim
that `"en.wikipedia.org"` is appended to every supplied list. -/
theorem search_exa_exclude_counterexample :
    (search_exa_params "q".data 10 none (some []) none none true false).2 =
      some [] ∧
    (search_exa_params "q".data 10 none (some []) none none true false).2 ≠
      some ["en.wikipedia.org".data] := by
  exact ⟨rfl, by decide⟩

/-- C10 (amended): the parameters sent always carry an `exclude_domains`
list containing `"en.wikipedia.org"`; when the caller supplies a
NON-EMPTY list, the domain is appended to that very list (the caller's
list is mutated accordingly); when the caller supplies `None` or an empty
list, `exclude_domains` is exactly `["en.wikipedia.org"]` and the
caller's value is left untouched. -/
theorem search_exa_exclude_amended :
    (∀ (q : List Char) (n : Nat) (incl excl : Option (List (List Char)))
        (sd ed : Option (List Char)) (tx ap : Bool), ∃ l,
      (search_exa_params q n incl excl sd ed tx ap).1.exclude_domains = some l ∧
      "en.wikipedia.org".data ∈ l) ∧
    (∀ (q : List Char) (n : Nat) (incl : Option (List (List Char)))
        (l : List (List Char)) (sd ed : Option (List Char)) (tx ap : Bool),
      l ≠ [] →
      (search_exa_params q n incl (some l) sd ed tx ap).1.exclude_domains =
        some (l ++ ["en.wikipedia.org".data]) ∧
      (search_exa_params q n incl (some l) sd ed tx ap).2 =
        some (l ++ ["en.wikipedia.org".data])) ∧
    (∀ (q : List Char) (n : Nat) (incl : Option (List (List Char)))
        (sd ed : Option (List Char)) (tx ap : Bool),
      (search_exa_params q n incl none sd ed tx ap).1.exclude_domains =
        some ["en.wikipedia.org".data] ∧
      (search_exa_params q n incl none sd ed tx ap).2 = none) ∧
    (∀ (q : List Char) (n : Nat) (incl : Option (List (List Char)))
        (sd ed : Option (List Char)) (tx ap : Bool),
      (search_exa_params q n incl (some []) sd ed tx ap).1.exclude_domains =
        some ["en.wikipedia.org".data] ∧
      (search_exa_params q n incl (some []) sd ed tx ap).2 = some []) := by
  refine ⟨?_, ?_, ?_, ?_⟩
  · intro q n incl excl sd ed tx ap
    obtain ⟨h1, -⟩ := search_exa_exclude_eq q n incl excl sd ed tx ap
    rcases excl with _ | l
    · exact ⟨_, h1, by simp⟩
    · by_cases hl : l = []
      · subst hl
        simp only [ne_eq, not_true_eq_false, if_false] at h1
        exact ⟨_, h1, by simp⟩
      · simp only [ne_eq, hl, not_false_eq_true, if_true] at h1
        exact ⟨_, h1, by simp⟩
  · intro q n incl l sd ed tx ap hl
    obtain ⟨h1, h2⟩ := search_exa_exclude_eq q n incl (some l) sd ed tx ap
    simp only [ne_eq, hl, not_false_eq_true, if_true] at h1 h2
    exact ⟨h1, h2⟩
  · intro q n incl sd ed tx ap
    exact search_exa_exclude_eq q n incl none sd ed tx ap
  · intro q n incl sd ed tx ap
    obtain ⟨h1, h2⟩ := search_exa_exclude_eq q n incl (some []) sd ed tx ap
    simpa using ⟨h1, h2⟩

/-- Witness for C10 at a concrete non-empty caller list. -/
theorem search_exa_exclude_amended_witness :
    (search_exa_params "q".data 10 none (some ["x.com".data]) none none
        true false).1.exclude_domains =
      some ["x.com".data, "en.wikipedia.org".data] ∧
    (search_exa_params "q".data 10 none (some ["x.com".data]) none none
        true false).2 =
      some ["x.com".data, "en.wikipedia.org".data] := by
  have h := search_exa_exclude_amended.2.1 "q".data 10 none ["x.com".data]
    none none true false (by decide)
  exact ⟨h.1.trans (by decide), h.2.trans (by decide)⟩

/-! ### Theorems about `format_result_as_markdown` -/

theorem suffix_extend {s b : List Char} (a : List Char) (h : s <:+ b) :
    s <:+ a ++ b := by
  obtain ⟨t, rfl⟩ := h
  exact ⟨a ++ t, by simp⟩

theorem digitChar_isDigit (n : Nat) (h : n < 10) :
    (Nat.digitChar n).isDigit = true := by
  interval_cases n <;> decide

theorem toDigitsCore_digits (fuel : Nat) :
    ∀ (n : Nat) (ds : List Char), (∀ c ∈ ds, c.isDigit = true) →
    ∀ c ∈ Nat.toDigitsCore 10 fuel n ds, c.isDigit = true := by
  induction fuel with
  | zero => intro n ds hds; exact hds
  | succ fuel ih =>
    intro n ds hds c hc
    rw [Nat.toDigitsCore] at hc
    split_ifs at hc with hz
    · rcases List.mem_cons.mp hc with rfl | hm
      · exact digitChar_isDigit _ (Nat.mod_lt _ (by omega))
      · exact hds c hm
    · refine ih (n / 10) (Nat.digitChar (n % 10) :: ds) ?_ c hc
      intro d hd
      rcases List.mem_cons.mp hd with rfl | hm
      · exact digitChar_isDigit _ (Nat.mod_lt _ (by omega))
      · exact hds d hm

theorem natStr_digits (n : Nat) : ∀ c ∈ natStr n, c.isDigit = true :=
  toDigitsCore_digits (n + 1) n [] (by simp)

theorem sections_end_nl (fmtDate : List Char → Option (List Char)) :
    ∀ (rs : List ExaResult) (i : Nat) (pre : List Char),
    ['\n'] <:+ pre → ['\n'] <:+ pre ++ resultSections fmtDate i rs := by
  intro rs
  induction rs with
  | nil => intro i pre h; simpa [resultSections] using h
  | cons r rs ih =>
    intro i pre h
    rw [resultSections, ← List.append_assoc]
    refine ih (i + 1) (pre ++ resultSection fmtDate i r) ?_
    unfold resultSection
    exact suffix_extend _ (suffix_extend _ (show ['\n'] <:+ "---\n\n".data by decide))

/-- C8: the markdown produced by `format_result_as_markdown` ends with a
line stating the total result count — the text after the final newline is
exactly `*Total results: N*` (newline-free), with `N` the length of the
input list. -/
theorem format_result_total_line (fmtDate : List Char → Option (List Char))
    (now : List Char) (results : List ExaResult) (query : List Char) :
    ('\n' :: ("*Total results: ".data ++ natStr results.length ++ "*".data)) <:+
      format_result_as_markdown fmtDate now results query ∧
    '\n' ∉ "*Total results: ".data ++ natStr results.length ++ "*".data := by
  constructor
  · have hfmt : format_result_as_markdown fmtDate now results query =
        ("# Search Results: ".data ++ query ++ "\n\n".data ++
          "*Search performed on: ".data ++ now ++ "*\n\n".data ++
          resultSections fmtDate 1 results) ++
        ("*Total results: ".data ++ natStr results.length ++ "*".data) := by
      unfold format_result_as_markdown
      simp [List.append_assoc]
    have hbody : ['\n'] <:+
        ("# Search Results: ".data ++ query ++ "\n\n".data ++
          "*Search performed on: ".data ++ now ++ "*\n\n".data ++
          resultSections fmtDate 1 results) := by
      rw [show "# Search Results: ".data ++ query ++ "\n\n".data ++
          "*Search performed on: ".data ++ now ++ "*\n\n".data ++
          resultSections fmtDate 1 results =
          ("# Search Results: ".data ++ query ++ "\n\n".data ++
            "*Search performed on: ".data ++ now ++ "*\n\n".data) ++
          resultSections fmtDate 1 results by simp [List.append_assoc]]
      refine sections_end_nl fmtDate results 1 _ ?_
      exact suffix_extend _ (show ['\n'] <:+ "*\n\n".data by decide)
    obtain ⟨y, hy⟩ := hbody
    rw [hfmt, ← hy]
    simp only [List.append_assoc, List.cons_append, List.nil_append]
    exact List.suffix_append y
      ('\n' :: ("*Total results: ".data ++ (natStr results.length ++ "*".data)))
  · intro hmem
    rcases List.mem_append.mp hmem with hmem | hmem
    · rcases List.mem_append.mp hmem with hmem | hmem
      · simp at hmem
      · have := natStr_digits results.length '\n' hmem
        simp at this
    · simp at hmem

/-! ### Claim-level theorems for the reader round trip and flush rule -/

/-- C2 counterexample: a file whose final record has a title, no URL
line, and transcript text is flushed at end of input even though it lacks
one of the two identifying fields, so the flush does not require BOTH
title and url. -/
theorem final_flush_counterexample :
    read_transcripts_file "Video #1\nTitle: T\nTRANSCRIPT:\nhello".data =
      [⟨some "T".data, none, "hello".data⟩] := by
  decide

/-- C2 (amended): at end of input the final accumulator is flushed under
exactly the rule a `Video #` sentinel applies - appending such a sentinel
never changes the parse - and a record is flushed only if the accumulator
is non-empty (it has at least one of title and url) and has non-empty
accumulated transcript text; a partial final record is silently dropped,
never reported as an error. -/
theorem final_flush_amended :
    (∀ ls : List (List Char),
      read_transcripts_lines (ls ++ ["Video #".data]) =
        read_transcripts_lines ls) ∧
    (∀ (ls : List (List Char)) (r : TRecord), r ∈ read_transcripts_lines ls →
      (r.title.isSome ∨ r.url.isSome) ∧ r.transcript ≠ []) := by
  exact ⟨read_append_sentinel, read_lines_inv⟩

/-- Witness for C2: appending the sentinel leaves a concrete partial
file's parse unchanged, and the record parsed from a concrete file has an
identifying field and non-empty text. -/
theorem final_flush_amended_witness :
    read_transcripts_lines (["Title: A".data] ++ ["Video #".data]) =
      read_transcripts_lines ["Title: A".data] ∧
    ((⟨some "T".data, none, "hello".data⟩ : TRecord).title.isSome ∨
      (⟨some "T".data, none, "hello".data⟩ : TRecord).url.isSome) ∧
    (⟨some "T".data, none, "hello".data⟩ : TRecord).transcript ≠ [] := by
  constructor
  · exact final_flush_amended.1 ["Title: A".data]
  · exact final_flush_amended.2
      ["Video #1".data, "Title: T".data, "TRANSCRIPT:".data, "hello".data]
      ⟨some "T".data, none, "hello".data⟩ (by decide)

/-- Witness for C6 at a concrete file: a header-only record at end of
input contributes nothing. -/
theorem read_drop_no_transcript_section_witness :
    read_transcripts_lines
      ([] ++ "Video #1".data :: (["Title: A".data, "URL: a".data] ++ [])) =
      read_transcripts_lines ([] ++ "Video #1".data :: []) :=
  read_drop_no_transcript_section [] ["Title: A".data, "URL: a".data] []
    "Video #1".data (by decide) (by decide) (Or.inl rfl)
